import Mathlib

/-
Verification development for the rlclientlib ONNX extension
(tensor-notation parser, input context, model handle and
inference orchestration).

The definitions below are a shallow embedding of the C++ sources
  src/rlclientlib/extensions/onnx/src/tensor_notation.cc
  src/rlclientlib/extensions/onnx/src/onnx_model.cc (class reinforcement_learning::onnx::onnx_model)
into Lean.  The character buffer of the parser is a `List Char`; the
C++ null terminator is modelled by `peek` returning the NUL character
for every position at or past the end of the buffer, which matches the
null-terminated reads of the source.  The scanning loops of the C++
parser advance a single cursor by at least one position per iteration,
so every loop is embedded structurally with an iteration bound (fuel)
of `buffer length + 1`, which no run can exhaust.

The ONNX Runtime itself (Ort::Session and friends) is an external
collaborator of the repository; it is embedded abstractly as a record
of the metadata the source queries (input type infos, output
name/type pairs) together with a `run` function for forward passes.
The base64 byte decoder (cpprest `from_base64`) is likewise external;
since nothing in the verified code inspects decoded bytes, decoded
byte buffers are represented by the validated base64 run itself.

A second, older model wrapper exists in the repository
(src/rlclientlib/onnx_model/onnx_model.cc, namespace
model_management); it does not compile (multiple syntax errors around
its Run call and its error returns) and is subsumed per the design
notes by the extensions variant, so the extensions variant is the one
embedded here.
-/

namespace RlOnnx

/-- Token characters of the tensor-notation grammar
(`namespace tokens` in tensor_notation.cc). -/
def NULL_TERMINATOR : Char := '\x00'

/-- Escape character token. -/
def ESCAPE : Char := '\\'

/-- Double-quote token. -/
def DQUOTE : Char := '\x22'

/-- Semicolon token. -/
def SEMICOLON : Char := ';'

/-- Colon token. -/
def COLON : Char := ':'

/-- Comma token. -/
def COMMA : Char := ','

/-- Opening curly bracket token. -/
def OPEN_CBRACKET : Char := '\x7b'

/-- Closing curly bracket token. -/
def CLOSE_CBRACKET : Char := '\x7d'

/-- Single-quote character as a string (used when embedding the C++
error messages that stream quote characters). -/
def SQ : String := String.singleton (Char.ofNat 39)

/-- Reading the character under a cursor of the null-terminated parse
buffer: positions at or past the end read as NUL, exactly as the C++
`*_reading_head` does on a null-terminated buffer. -/
def peek (s : List Char) (i : Nat) : Char := s.getD i NULL_TERMINATOR

/-- The line/column scan of `TensorParser::make_error`: fold over the
consumed characters starting from (1, 1), a newline increments the
line and resets the column, any other character increments the
column. -/
def pos_scan (cs : List Char) : Nat × Nat :=
  cs.foldl (fun p c => if c = '\n' then (p.1 + 1, 1) else (p.1, p.2 + 1)) (1, 1)

/-- A thrown `TensorParserError`: the 1-based line and column, the
message text appended after the positional prefix, and the raw cursor
position at the throw site (the C++ object does not store the cursor,
but the member `_reading_head` of the parser keeps it; it is carried
here so the parser state after a failed parse can be reproduced). -/
structure PErr where
  line : Nat
  col : Nat
  rest : String
  pos : Nat
deriving DecidableEq

/-- The full message of a `TensorParserError` as built by its
constructor and stream operator. -/
def PErr.message (e : PErr) : String :=
  "Error parsing TensorNotation at position (" ++ toString e.line ++ ":" ++
    toString e.col ++ "): " ++ e.rest

/-- `TensorParser::make_error`, applied at cursor `i`: scans all
characters consumed up to and including the failing position, i.e. the
buffer slice `[0, i]` (the C++ `for_each(_parse_buffer, _reading_head + 1, ...)`,
where the buffer extends by its null terminator). -/
def make_error (s : List Char) (i : Nat) (rest : String) : PErr :=
  let lc := pos_scan (((s ++ [NULL_TERMINATOR]).take (i + 1)))
  { line := lc.1, col := lc.2, rest := rest, pos := i }

/-- `TensorParser::read_character`: consume exactly the expected
character or throw a positional error. -/
def read_character (s : List Char) (c : Char) (i : Nat) : Except PErr Nat :=
  if peek s i = c then .ok (i + 1)
  else .error (make_error s i
    ("Expecting " ++ SQ ++ String.singleton c ++ SQ ++ "; actual " ++ SQ ++
      String.singleton (peek s i) ++ SQ ++ "."))

/-- The whitespace set of `TensorParser::skip_whitespace`. -/
def is_whitespace (c : Char) : Bool :=
  c == ' ' || c == '\t' || c == '\r' || c == '\n'

/-- `TensorParser::skip_whitespace`: advance the cursor while the
current character is whitespace (NUL is not whitespace, so the scan is
robust to end-of-string).  The fuel argument bounds the iterations;
call sites pass `s.length + 1`, which cannot be exhausted since every
iteration advances the cursor inside the buffer. -/
def skip_whitespace : Nat → List Char → Nat → Nat
  | 0, _, i => i
  | fuel + 1, s, i =>
    if is_whitespace (peek s i) then skip_whitespace fuel s (i + 1) else i

/-- `TensorParser::is_base64`: membership in the base64 alphabet
(including the padding character). -/
def is_base64 (c : Char) : Bool :=
  c == '+' || c == '/' ||
  (decide ('0' ≤ c) && decide (c ≤ '9')) ||
  (decide ('A' ≤ c) && decide (c ≤ 'Z')) ||
  (decide ('a' ≤ c) && decide (c ≤ 'z')) ||
  c == '='

/-- The scanning loop of `TensorParser::read_base64`: advance while
the current character is in the base64 alphabet.  Fuel as in
`skip_whitespace`. -/
def b64_scan_end : Nat → List Char → Nat → Nat
  | 0, _, i => i
  | fuel + 1, s, i =>
    if is_base64 (peek s i) then b64_scan_end fuel s (i + 1) else i

/-- Decoded byte buffers (`bytes_t` in the source).  The decoder
`::utility::conversions::from_base64` is an external collaborator of
the repository; nothing in the embedded code inspects decoded bytes,
so a decoded buffer is represented by the validated base64 run that
produced it. -/
def bytes_t : Type := String
deriving DecidableEq

/-- The external base64 decoder, abstracted (see `bytes_t`). -/
def from_base64 (base64string : String) : bytes_t := base64string

/-- `TensorParser::read_base64`: scan a base64 run, reject it with a
positional error when its length is not divisible by 4, otherwise
decode it. -/
def read_base64 (s : List Char) (i : Nat) : Except PErr (bytes_t × Nat) :=
  let j := b64_scan_end (s.length + 1) s i
  let base64string := String.mk ((s.drop i).take (j - i))
  if base64string.length % 4 ≠ 0 then
    .error (make_error s j
      ("Base64 string \"" ++ base64string ++ "\" length is not divisible by 4: " ++
        toString base64string.length ++ "."))
  else .ok (from_base64 base64string, j)

/-- The name-scanning loop of `TensorParser::read_tensor_name`,
translated case by case from the C++ `switch`: an unescaped double
quote or a NUL ends the scan; a double quote seen with the escape flag
set is consumed (the flag is left as it is, the `break` only leaves
the `switch`); a backslash toggles the escape flag; every other
character is consumed with the flag unchanged.  Returns the cursor of
the terminating character.  Fuel as in `skip_whitespace`. -/
def name_scan : Nat → List Char → Nat → Bool → Nat
  | 0, _, i, _ => i
  | fuel + 1, s, i, in_escape =>
    if peek s i = DQUOTE then
      (if in_escape then name_scan fuel s (i + 1) in_escape else i)
    else if peek s i = NULL_TERMINATOR then i
    else if peek s i = ESCAPE then name_scan fuel s (i + 1) (!in_escape)
    else name_scan fuel s (i + 1) in_escape

/-- The name-scanning loop as the specification's §4.1 sentence
describes it (the sentence behind claim C6), for comparison with the
source-derived `name_scan`: here the escape flag is NOT preserved
across non-double-quote characters (a consumed ordinary character
clears it), it suppresses the terminating effect of the NEXT double
quote only (a suppressed quote clears it), and a backslash re-toggles
it on each occurrence. -/
def name_scan_as_specified : Nat → List Char → Nat → Bool → Nat
  | 0, _, i, _ => i
  | fuel + 1, s, i, in_escape =>
    if peek s i = DQUOTE then
      (if in_escape then name_scan_as_specified fuel s (i + 1) false else i)
    else if peek s i = NULL_TERMINATOR then i
    else if peek s i = ESCAPE then name_scan_as_specified fuel s (i + 1) (!in_escape)
    else name_scan_as_specified fuel s (i + 1) false

/-- Number of ESCAPE characters the buffer holds at positions
`i ≤ m < j` (used to characterise the escape flag of `name_scan`). -/
def escCount (s : List Char) (i j : Nat) : Nat :=
  (List.range' i (j - i)).countP (fun m => peek s m == ESCAPE)

/-- `TensorParser::read_tensor_name`: consume the opening quote, scan
the name, consume the closing quote, return the scanned name. -/
def read_tensor_name (s : List Char) (i : Nat) : Except PErr (String × Nat) :=
  match read_character s DQUOTE i with
  | .error e => .error e
  | .ok i1 =>
    let token_end := name_scan (s.length + 1) s i1 false
    match read_character s DQUOTE token_end with
    | .error e => .error e
    | .ok i2 => .ok (String.mk ((s.drop i1).take (token_end - i1)), i2)

/-- `tensor_data_t`: the (dimensions, values) pair of decoded
buffers. -/
def tensor_data_t : Type := bytes_t × bytes_t
deriving DecidableEq

/-- `TensorParser::read_tensor_data`: quoted pair of base64 runs
separated by a semicolon. -/
def read_tensor_data (s : List Char) (i : Nat) : Except PErr (tensor_data_t × Nat) :=
  match read_character s DQUOTE i with
  | .error e => .error e
  | .ok i1 =>
    match read_base64 s i1 with
    | .error e => .error e
    | .ok (dimensions_base64, i2) =>
      match read_character s SEMICOLON i2 with
      | .error e => .error e
      | .ok i3 =>
        match read_base64 s i3 with
        | .error e => .error e
        | .ok (values_base64, i4) =>
          match read_character s DQUOTE i4 with
          | .error e => .error e
          | .ok i5 => .ok ((dimensions_base64, values_base64), i5)

/-- Modelled from the spec: `OnnxRtInputContext` is declared in the
header tensor_notation.h, which is not part of the available sources;
per §4.2/§3 of the specification it is the per-request accumulator the
parser populates, keeping each pushed (name, data) entry in insertion
order, with no entry ever removed or mutated. -/
structure OnnxRtInputContext where
  entries : List (String × tensor_data_t)
deriving DecidableEq

/-- `OnnxRtInputContext::push_input`: append an entry, recording
insertion order. -/
def OnnxRtInputContext.push_input (ctx : OnnxRtInputContext) (name : String)
    (value : tensor_data_t) : OnnxRtInputContext :=
  { entries := ctx.entries ++ [(name, value)] }

/-- `OnnxRtInputContext::input_names`: the ordered tensor names. -/
def OnnxRtInputContext.input_names (ctx : OnnxRtInputContext) : List String :=
  ctx.entries.map Prod.fst

/-- `OnnxRtInputContext::input_count`: the number of accumulated
entries. -/
def OnnxRtInputContext.input_count (ctx : OnnxRtInputContext) : Nat :=
  ctx.entries.length

/-- Modelled from the spec: `OnnxRtInputContext::inputs()` (declared
in the missing tensor_notation.h) projects the accumulated entries
into inference-engine input values, validating each entry at this
consumption boundary; `convert` abstracts the per-entry projection,
`none` meaning the entry could not be interpreted, so the resulting
vector can be shorter than the entry list. -/
def OnnxRtInputContext.inputs {Val : Type}
    (ctx : OnnxRtInputContext)
    (convert : String × tensor_data_t → Option (List Val)) : List (List Val) :=
  ctx.entries.filterMap convert

/-- `TensorParser::read_tensor`: name, colon (whitespace-skipped
around it), data; push the parsed tensor into the input context.  All
throw sites of this function occur before the push, so on error the
context is returned unchanged by construction. -/
def read_tensor (s : List Char) (ctx : OnnxRtInputContext) (i : Nat) :
    Except PErr (OnnxRtInputContext × Nat) :=
  match read_tensor_name s i with
  | .error e => .error e
  | .ok (name, i1) =>
    let i2 := skip_whitespace (s.length + 1) s i1
    match read_character s COLON i2 with
    | .error e => .error e
    | .ok i3 =>
      let i4 := skip_whitespace (s.length + 1) s i3
      match read_tensor_data s i4 with
      | .error e => .error e
      | .ok (value, i5) => .ok (ctx.push_input name value, i5)

/-- The `while` loop of `TensorParser::read_tensor_list`: while the
current character is neither the closing bracket nor NUL, read a
tensor, skip whitespace, and consume an optional comma (with trailing
whitespace).  Errors carry the context as populated up to the throw
site.  Each iteration consumes at least two characters, so fuel
`s.length + 1` cannot be exhausted. -/
def read_tensor_list_loop :
    Nat → List Char → OnnxRtInputContext → Nat →
      Except (PErr × OnnxRtInputContext) (OnnxRtInputContext × Nat)
  | 0, s, ctx, i => .error (make_error s i "unreachable: iteration bound exhausted", ctx)
  | fuel + 1, s, ctx, i =>
    if peek s i ≠ CLOSE_CBRACKET ∧ peek s i ≠ NULL_TERMINATOR then
      match read_tensor s ctx i with
      | .error e => .error (e, ctx)
      | .ok (ctx2, i1) =>
        let i2 := skip_whitespace (s.length + 1) s i1
        if peek s i2 = COMMA then
          match read_character s COMMA i2 with
          | .error e => .error (e, ctx2)
          | .ok i3 => read_tensor_list_loop fuel s ctx2 (skip_whitespace (s.length + 1) s i3)
        else read_tensor_list_loop fuel s ctx2 i2
    else .ok (ctx, i)

/-- `TensorParser::read_tensor_list`: whitespace, opening bracket,
whitespace, tensor list, closing bracket. -/
def read_tensor_list (s : List Char) (ctx : OnnxRtInputContext) (i : Nat) :
    Except (PErr × OnnxRtInputContext) (OnnxRtInputContext × Nat) :=
  let i1 := skip_whitespace (s.length + 1) s i
  match read_character s OPEN_CBRACKET i1 with
  | .error e => .error (e, ctx)
  | .ok i2 =>
    match read_tensor_list_loop (s.length + 1) s ctx (skip_whitespace (s.length + 1) s i2) with
    | .error e => .error e
    | .ok (ctx2, i3) =>
      match read_character s CLOSE_CBRACKET i3 with
      | .error e => .error (e, ctx2)
      | .ok i4 => .ok (ctx2, i4)

/-- The state of a `TensorParser` object: the parse buffer (`none`
models a null `const char*`), the reading head, and the
`_has_parsed` / `_has_error` / `_error_message` members.  The member
`_token_start` is omitted: every C++ use writes it before reading it
inside a single call, so it carries no cross-call state. -/
structure TensorParser where
  parse_buffer : Option (List Char)
  reading_head : Nat
  has_parsed : Bool
  has_error : Bool
  error_message : String
deriving DecidableEq

/-- The `TensorParser` constructor: heads at the buffer start, no
parse recorded, no error, empty error message. -/
def TensorParser.init (buf : Option (List Char)) : TensorParser :=
  { parse_buffer := buf, reading_head := 0, has_parsed := false,
    has_error := false, error_message := "" }

/-- `TensorParser::cached_parse`, translated faithfully: if
`_has_parsed` is set, return the memoized verdict; otherwise, when the
buffer is non-null and does not start with NUL, run
`read_tensor_list` from the CURRENT reading head, recording
`_has_error` when it throws.  Note that the C++ body never sets
`_has_parsed` and never stores the thrown error's message into
`_error_message`; the translation preserves both facts. -/
def cached_parse (p : TensorParser) (ctx : OnnxRtInputContext) :
    Bool × TensorParser × OnnxRtInputContext :=
  if p.has_parsed then (!p.has_error, p, ctx)
  else
    match p.parse_buffer with
    | none => (!p.has_error, p, ctx)
    | some s =>
      if peek s 0 = NULL_TERMINATOR then (!p.has_error, p, ctx)
      else
        match read_tensor_list s ctx p.reading_head with
        | .ok (ctx2, i2) => (!p.has_error, { p with reading_head := i2 }, ctx2)
        | .error (e, ctx2) =>
          (false, { p with reading_head := e.pos, has_error := true }, ctx2)

/-- Status values of the public API: `error_code::success` or an
error code together with the message built into the `api_status`. -/
inductive ErrCode where
  | extension_error
  | model_update_error
  | model_rank_error
deriving DecidableEq

/-- An `api_status`-style result: success, or an error code with its
human-readable message. -/
inductive Status where
  | success
  | err (code : ErrCode) (msg : String)
deriving DecidableEq

/-- `read_tensor_notation` (tensor_notation.cc): construct a parser
over the notation text, run `cached_parse`, and on failure surface an
`extension_error` whose message appends `parser.error_message()` to
the fixed prefix. -/
def read_tensor_notation_fn (features : Option (List Char))
    (input_context : OnnxRtInputContext) : Status × OnnxRtInputContext :=
  match cached_parse (TensorParser.init features) input_context with
  | (true, _, ctx2) => (.success, ctx2)
  | (false, p2, ctx2) =>
    (.err .extension_error
      ("OnnxExtension: Failed to deserialize tensor: " ++ p2.error_message), ctx2)

/-- The ONNX type tag of a `Ort::TypeInfo` (`GetONNXType`), reduced
to the tags the source distinguishes. -/
inductive ONNXType where
  | tensor
  | sequence
  | map
  | unknown
deriving DecidableEq

/-- The element data type of a tensor type info
(`GetTensorTypeAndShapeInfo().GetElementType()`), reduced to the tags
the source distinguishes. -/
inductive TensorElemType where
  | float
  | int64
  | double
  | undefined
deriving DecidableEq

/-- The metadata the source queries from a `Ort::TypeInfo`. -/
structure TypeInfo where
  onnx_type : ONNXType
  element_type : TensorElemType
deriving DecidableEq

/-- The check of update rules 1 and 2: the type info is a tensor of
floats (`GetONNXType() == ONNX_TYPE_TENSOR` and element type
`FLOAT`). -/
def is_float_tensor (ti : TypeInfo) : Bool :=
  decide (ti.onnx_type = ONNXType.tensor) &&
  decide (ti.element_type = TensorElemType.float)

/-- An inference-engine session (`Ort::Session`), embedded abstractly
as the metadata the source queries (`GetInputCount`/`GetInputTypeInfo`,
`GetOutputCount`/`GetOutputName`/`GetOutputTypeInfo`) plus the forward
pass `Run(input names, input tensors, output names)`, which yields one
output tensor (a flat buffer of `Val` elements, `GetElementCount` =
its length) per requested output name.  `Val` abstracts the engine's
32-bit float element values, which the embedded code moves but never
computes with. -/
structure Session (Val : Type) where
  input_types : List TypeInfo
  outputs : List (String × TypeInfo)
  run : List String → List (List Val) → List String → List (List Val)

/-- A `model_management::model_data` payload together with what the
external engine does with its bytes: `Ort::Session` construction
either yields a session or throws with a message
(`std::exception::what()`). -/
structure ModelData (Val : Type) where
  data_sz : Nat
  load : Except String (Session Val)

/-- The state of a `reinforcement_learning::onnx::onnx_model` object
that update/choose_rank read and write: the configured output name
and notation flag, the designated output index (uninitialized until
the first successful update — the constructor leaves the member
unset, so states carry an arbitrary value there), and the shared
current session (`_master_session`, empty until the first successful
update). -/
structure OnnxModel (Val : Type) where
  output_name : String
  output_index : Nat
  parse_feature_string : Bool
  master_session : Option (Session Val)

/-- The output-name scan of `onnx_model::update`: walk the output
list in index order and stop at the first output whose name equals
the configured output name, yielding that index and its type info. -/
def find_output (outputs : List (String × TypeInfo)) (name : String) (start : Nat) :
    Option (Nat × TypeInfo) :=
  match outputs with
  | [] => none
  | o :: rest =>
    if o.1 == name then some (start, o.2) else find_output rest name (start + 1)

/-- `onnx_model::update` (extensions variant): reject empty model
data; load the bytes through the engine (an engine throw surfaces its
message); validate that every input is a tensor of floats; find the
designated output by name and validate that it is a tensor of floats;
only then publish the new unit by writing `_output_index` and
`_master_session`, and set the `model_ready` out-parameter.  Returns
(status, new object state, model_ready). -/
def update {Val : Type} (m : OnnxModel Val) (data : ModelData Val)
    (model_ready : Bool) : Status × OnnxModel Val × Bool :=
  if data.data_sz = 0 then
    (.err .model_update_error "Empty model data.", m, model_ready)
  else
    match data.load with
    | .error e => (.err .model_update_error e, m, model_ready)
    | .ok new_session =>
      if ¬ (new_session.input_types.all fun ti => is_float_tensor ti) then
        (.err .model_update_error "Invalid input type. Expected: tensor<float>.",
          m, model_ready)
      else
        match find_output new_session.outputs m.output_name 0 with
        | none =>
          (.err .model_update_error
            ("Could not find output with name " ++ SQ ++ m.output_name ++ SQ ++
              " in model."), m, model_ready)
        | some (output_index, output_type_info) =>
          if ¬ is_float_tensor output_type_info then
            (.err .model_update_error "Invalid output type. Expected: tensor<float>.",
              m, model_ready)
          else
            (.success,
              { m with output_index := output_index,
                       master_session := some new_session },
              true)

/-- The extraction loop at the end of `onnx_model::choose_rank`:
`for (i = 0; i < num_elements; i++) { action_ids.push_back(i);
action_pdf.push_back(floatarr[i]); }`, with `i0` the running index. -/
def push_loop {Val : Type} (t : List Val) (i0 : Nat) (action_ids : List Nat)
    (action_pdf : List Val) : List Nat × List Val :=
  match t with
  | [] => (action_ids, action_pdf)
  | v :: rest => push_loop rest (i0 + 1) (action_ids ++ [i0]) (action_pdf ++ [v])

/-- The observable outcome of a `choose_rank` call: a value return
carrying the status and the final contents of the three out-parameters
(`action_ids`, `action_pdf`, `model_version`), or `crash` for the
undefined behaviour of indexing the `Run` result vector out of bounds
(the release build's unchecked `outputs[_output_index]`). -/
inductive COutcome (Val : Type) where
  | ret (status : Status) (action_ids : List Nat) (action_pdf : List Val)
      (model_version : String)
  | crash
deriving DecidableEq

/-- `onnx_model::choose_rank` (extensions variant): snapshot the
session; fail when none was ever published; parse the notation into a
fresh input context (or fail when the structured-input path is
selected); fail when the engine input values do not match the
context's entry count; run the engine requesting exactly the
designated output name; extract the output tensor at
`_output_index` (out of bounds is a crash), appending one
(index, element) pair per element to the out-vectors.  `rnd_seed` is
accepted but not consumed; `model_version` is left unset. -/
def choose_rank {Val : Type} (m : OnnxModel Val)
    (convert : String × tensor_data_t → Option (List Val))
    (rnd_seed : Nat) (features : Option (List Char))
    (action_ids : List Nat) (action_pdf : List Val)
    (model_version : String) : COutcome Val :=
  match m.master_session with
  | none => .ret (.err .model_rank_error "No model loaded.")
      action_ids action_pdf model_version
  | some local_session =>
    if m.parse_feature_string then
      match read_tensor_notation_fn features { entries := [] } with
      | (.err c msg, _) => .ret (.err c msg) action_ids action_pdf model_version
      | (.success, input_context) =>
        let input_names := input_context.input_names
        let inputs := input_context.inputs convert
        if inputs.length ≠ input_context.input_count then
          .ret (.err .model_rank_error
            "Could not interpret input values to match expected inputs.")
            action_ids action_pdf model_version
        else
          let outputs := local_session.run input_names inputs [m.output_name]
          match outputs[m.output_index]? with
          | none => .crash
          | some target_output =>
            let r := push_loop target_output 0 action_ids action_pdf
            .ret .success r.1 r.2 model_version
    else
      .ret (.err .model_rank_error
        "Using parse_feature_string=false not implemented. See onnx_model.cc.")
        action_ids action_pdf model_version

/-- The output tensor a `choose_rank` call extracts its results from:
the element of the engine's `Run` result at the designated output
index, for the input context parsed from the given notation (defined
when the call reaches the extraction step). -/
def designated_output {Val : Type} (m : OnnxModel Val)
    (convert : String × tensor_data_t → Option (List Val))
    (features : Option (List Char)) : Option (List Val) :=
  match m.master_session with
  | none => none
  | some local_session =>
    if m.parse_feature_string then
      match read_tensor_notation_fn features { entries := [] } with
      | (.err _ _, _) => none
      | (.success, input_context) =>
        (local_session.run input_context.input_names
          (input_context.inputs convert) [m.output_name])[m.output_index]?
    else none

/-! Concrete sessions, model data and handle states used to evaluate
the embedded code on explicit inputs.  The element values of engine
tensors are instantiated with `Int` (the embedded code only moves
elements around, so any type with decidable equality serves). -/

/-- A tensor-of-float type info. -/
def FT : TypeInfo := { onnx_type := ONNXType.tensor, element_type := TensorElemType.float }

/-- A loaded session with no inputs whose only output `score` scores
three actions. -/
def c1_session : Session Int :=
  { input_types := [], outputs := [("score", FT)], run := fun _ _ _ => [[3, 1, 2]] }

/-- A ready model handle serving `c1_session`. -/
def c1_model : OnnxModel Int :=
  { output_name := "score", output_index := 0, parse_feature_string := true,
    master_session := some c1_session }

/-- A trivial engine-input projection (the concrete calls below parse
empty contexts, so it is never consulted). -/
def c1_conv : String × tensor_data_t → Option (List Int) := fun _ => none

/-- A loaded session for the update-failure scenario. -/
def c2_session : Session Int :=
  { input_types := [], outputs := [("score", FT)], run := fun _ _ _ => [[11]] }

/-- Model data the engine accepts, yielding `c2_session`. -/
def c2_data : ModelData Int := { data_sz := 6, load := .ok c2_session }

/-- A freshly constructed handle (no session, indeterminate output
index). -/
def c2_model0 : OnnxModel Int :=
  { output_name := "score", output_index := 5, parse_feature_string := true,
    master_session := none }

/-- The handle after one successful update. -/
def c2_model1 : OnnxModel Int := (update c2_model0 c2_data false).2.1

/-- Model data the engine rejects at load. -/
def c2_bad : ModelData Int := { data_sz := 3, load := .error "Invalid model bytes." }

/-- Engine-input projection for the C2 scenario. -/
def c2_conv : String × tensor_data_t → Option (List Int) := fun _ => none

/-- A loaded session that declares exactly one (float tensor) input. -/
def c5_session : Session Int :=
  { input_types := [FT], outputs := [("score", FT)], run := fun _ _ _ => [[37]] }

/-- Model data the engine accepts, yielding `c5_session`. -/
def c5_data : ModelData Int := { data_sz := 4, load := .ok c5_session }

/-- A freshly constructed handle for the C5 scenario. -/
def c5_model0 : OnnxModel Int :=
  { output_name := "score", output_index := 0, parse_feature_string := true,
    master_session := none }

/-- The handle after loading the one-input model. -/
def c5_model1 : OnnxModel Int := (update c5_model0 c5_data false).2.1

/-- The notation text `{"a":"AAAA;AAAA"}` as a character buffer: it
supplies exactly one named tensor. -/
def c5_feats : List Char :=
  [OPEN_CBRACKET, DQUOTE, 'a', DQUOTE, COLON, DQUOTE,
   'A', 'A', 'A', 'A', SEMICOLON, 'A', 'A', 'A', 'A', DQUOTE, CLOSE_CBRACKET]

/-- A handle on which no update ever succeeded (`_master_session`
empty, `_output_index` holding constructor garbage). -/
def c7_model : OnnxModel Int :=
  { output_name := "o", output_index := 42, parse_feature_string := true,
    master_session := none }

/-- A loaded session for the empty-model-data scenario. -/
def c8_session : Session Int :=
  { input_types := [], outputs := [("score", FT)], run := fun _ _ _ => [[9]] }

/-- Model data the engine accepts, yielding `c8_session`. -/
def c8_data : ModelData Int := { data_sz := 6, load := .ok c8_session }

/-- A freshly constructed handle for the C8 scenario. -/
def c8_model0 : OnnxModel Int :=
  { output_name := "score", output_index := 5, parse_feature_string := true,
    master_session := none }

/-- The handle after one successful update. -/
def c8_model1 : OnnxModel Int := (update c8_model0 c8_data false).2.1

/-- Zero-length model data (its engine behaviour is irrelevant: the
source rejects the payload before reaching the engine). -/
def c8_empty : ModelData Int := { data_sz := 0, load := .error "unused" }

/-- A ready handle whose only output scores two actions. -/
def c10_session : Session Int :=
  { input_types := [], outputs := [("s", FT)], run := fun _ _ _ => [[5, 6]] }

/-- A ready model handle serving `c10_session`. -/
def c10_model : OnnxModel Int :=
  { output_name := "s", output_index := 0, parse_feature_string := true,
    master_session := some c10_session }

/-! Helper lemmas. -/

/-- A position that does not read as NUL lies inside the buffer. -/
theorem lt_length_of_peek_ne {s : List Char} {i : Nat}
    (h : peek s i ≠ NULL_TERMINATOR) : i < s.length := by
  by_contra hc
  push_neg at hc
  exact h (by simp [peek, List.getD, List.getElem?_eq_none hc])

/-- The extraction loop appends the running indices and the tensor
elements to the out-vectors. -/
theorem push_loop_eq {Val : Type} (t : List Val) :
    ∀ (i0 : Nat) (ids : List Nat) (pdf : List Val),
      push_loop t i0 ids pdf = (ids ++ List.range' i0 t.length, pdf ++ t) := by
  induction t with
  | nil => intro i0 ids pdf; simp [push_loop]
  | cons v rest ih =>
    intro i0 ids pdf
    rw [push_loop, ih (i0 + 1) (ids ++ [i0]) (pdf ++ [v])]
    simp [List.range'_succ]

/-- No escape characters lie in an empty scan region. -/
theorem escCount_self (s : List Char) (i : Nat) : escCount s i i = 0 := by
  simp [escCount]

/-- Splitting off the first position of a scan region. -/
theorem escCount_succ (s : List Char) (i k : Nat) (h : i + 1 ≤ k) :
    escCount s i k = (if peek s i = ESCAPE then 1 else 0) + escCount s (i + 1) k := by
  unfold escCount
  rw [show k - i = (k - (i + 1)) + 1 by omega, List.range'_succ, List.countP_cons]
  by_cases hp : peek s i = ESCAPE <;> simp [hp] <;> omega

/-- Characterisation of the name-scanning loop for an arbitrary
initial escape flag: the scan stops at the first position that reads
as NUL or as a double quote at which the running escape flag (the
initial flag XOR the parity of the backslashes consumed so far) is
clear; every earlier position is consumed, and a consumed double
quote always has the running flag set. -/
theorem name_scan_chars :
    ∀ (fuel : Nat) (s : List Char) (i : Nat) (esc : Bool), s.length - i < fuel →
      i ≤ name_scan fuel s i esc ∧
      (peek s (name_scan fuel s i esc) = NULL_TERMINATOR ∨
        (peek s (name_scan fuel s i esc) = DQUOTE ∧
          escCount s i (name_scan fuel s i esc) % 2 = if esc then 1 else 0)) ∧
      (∀ k, i ≤ k → k < name_scan fuel s i esc →
        peek s k ≠ NULL_TERMINATOR ∧
          (peek s k = DQUOTE → escCount s i k % 2 = if esc then 0 else 1)) := by
  intro fuel
  induction fuel with
  | zero => intro s i esc h; omega
  | succ fuel ih =>
    intro s i esc h
    by_cases hq : peek s i = DQUOTE
    · cases esc with
      | false =>
        have hred : name_scan (fuel + 1) s i false = i := by
          simp only [name_scan]
          rw [if_pos hq]
          simp
        rw [hred]
        refine ⟨le_refl i, Or.inr ⟨hq, by simp [escCount_self]⟩, ?_⟩
        intro k hk1 hk2
        omega
      | true =>
        have hne : peek s i ≠ NULL_TERMINATOR := by rw [hq]; decide
        have hlt : i < s.length := lt_length_of_peek_ne hne
        have h' : s.length - (i + 1) < fuel := by omega
        obtain ⟨ih1, ih2, ih3⟩ := ih s (i + 1) true h'
        have hred : name_scan (fuel + 1) s i true = name_scan fuel s (i + 1) true := by
          simp only [name_scan]
          rw [if_pos hq]
          simp
        rw [hred]
        have hcnt : ∀ k, i + 1 ≤ k → escCount s i k = escCount s (i + 1) k := by
          intro k hk
          rw [escCount_succ s i k hk]
          have hnesc : peek s i ≠ ESCAPE := by rw [hq]; decide
          simp [hnesc]
        refine ⟨by omega, ?_, ?_⟩
        · rcases ih2 with h2 | ⟨h2a, h2b⟩
          · exact Or.inl h2
          · exact Or.inr ⟨h2a, by rw [hcnt _ ih1]; exact h2b⟩
        · intro k hk1 hk2
          by_cases hki : k = i
          · subst hki
            exact ⟨hne, fun _ => by simp [escCount_self]⟩
          · have hk1' : i + 1 ≤ k := by omega
            obtain ⟨g1, g2⟩ := ih3 k hk1' hk2
            exact ⟨g1, fun hqk => by rw [hcnt _ hk1']; exact g2 hqk⟩
    · by_cases hn : peek s i = NULL_TERMINATOR
      · have hred : name_scan (fuel + 1) s i esc = i := by
          simp only [name_scan]
          rw [if_neg hq, if_pos hn]
        rw [hred]
        exact ⟨le_refl i, Or.inl hn, fun k hk1 hk2 => by omega⟩
      · have hlt : i < s.length := lt_length_of_peek_ne hn
        have h' : s.length - (i + 1) < fuel := by omega
        by_cases he : peek s i = ESCAPE
        · obtain ⟨ih1, ih2, ih3⟩ := ih s (i + 1) (!esc) h'
          have hred : name_scan (fuel + 1) s i esc = name_scan fuel s (i + 1) (!esc) := by
            simp only [name_scan]
            rw [if_neg hq, if_neg hn, if_pos he]
          rw [hred]
          have hcnt : ∀ k, i + 1 ≤ k → escCount s i k = 1 + escCount s (i + 1) k := by
            intro k hk
            rw [escCount_succ s i k hk]
            simp [he]
          refine ⟨by omega, ?_, ?_⟩
          · rcases ih2 with h2 | ⟨h2a, h2b⟩
            · exact Or.inl h2
            · refine Or.inr ⟨h2a, ?_⟩
              rw [hcnt _ ih1]
              cases esc <;> simp at h2b ⊢ <;> omega
          · intro k hk1 hk2
            by_cases hki : k = i
            · subst hki
              exact ⟨hn, fun hqk => absurd hqk hq⟩
            · have hk1' : i + 1 ≤ k := by omega
              obtain ⟨g1, g2⟩ := ih3 k hk1' hk2
              refine ⟨g1, fun hqk => ?_⟩
              have hg := g2 hqk
              rw [hcnt _ hk1']
              cases esc <;> simp at hg ⊢ <;> omega
        · obtain ⟨ih1, ih2, ih3⟩ := ih s (i + 1) esc h'
          have hred : name_scan (fuel + 1) s i esc = name_scan fuel s (i + 1) esc := by
            simp only [name_scan]
            rw [if_neg hq, if_neg hn, if_neg he]
          rw [hred]
          have hcnt : ∀ k, i + 1 ≤ k → escCount s i k = escCount s (i + 1) k := by
            intro k hk
            rw [escCount_succ s i k hk]
            simp [he]
          refine ⟨by omega, ?_, ?_⟩
          · rcases ih2 with h2 | ⟨h2a, h2b⟩
            · exact Or.inl h2
            · exact Or.inr ⟨h2a, by rw [hcnt _ ih1]; exact h2b⟩
          · intro k hk1 hk2
            by_cases hki : k = i
            · subst hki
              exact ⟨hn, fun hqk => absurd hqk hq⟩
            · have hk1' : i + 1 ≤ k := by omega
              obtain ⟨g1, g2⟩ := ih3 k hk1' hk2
              exact ⟨g1, fun hqk => by rw [hcnt _ hk1']; exact g2 hqk⟩

/-! Claim theorems. -/

/-- C1: on every successful choose_rank call, the entries appended to
the out-vectors are exactly one per element of the designated output
tensor, with action ids the dense 0-based indices 0..N-1 in ascending
order and probabilities the corresponding output elements in output
element order. -/
theorem c1_choose_rank_success_dense_actions {Val : Type} (m : OnnxModel Val)
    (convert : String × tensor_data_t → Option (List Val)) (seed : Nat)
    (features : Option (List Char)) (ids : List Nat) (pdf : List Val) (ver : String)
    (ids2 : List Nat) (pdf2 : List Val) (ver2 : String)
    (h : choose_rank m convert seed features ids pdf ver =
      .ret .success ids2 pdf2 ver2) :
    ∃ t, designated_output m convert features = some t ∧
      ids2 = ids ++ List.range t.length ∧ pdf2 = pdf ++ t := by
  cases hms : m.master_session with
  | none => simp [choose_rank, hms] at h
  | some s =>
    by_cases hpf : m.parse_feature_string
    · rcases hr : read_tensor_notation_fn features { entries := [] } with ⟨st, ctx⟩
      cases st with
      | err c msg => simp [choose_rank, hms, hpf, hr] at h
      | success =>
        by_cases hcnt : (ctx.inputs convert).length ≠ ctx.input_count
        · simp [choose_rank, hms, hpf, hr, hcnt] at h
        · cases hget : (s.run ctx.input_names (ctx.inputs convert)
              [m.output_name])[m.output_index]? with
          | none => simp [choose_rank, hms, hpf, hr, hcnt, hget] at h
          | some t =>
            have hcr : choose_rank m convert seed features ids pdf ver =
                .ret .success (ids ++ List.range t.length) (pdf ++ t) ver := by
              simp [choose_rank, hms, hpf, hr, hcnt, hget, push_loop_eq,
                List.range_eq_range']
            rw [hcr] at h
            simp only [COutcome.ret.injEq] at h
            obtain ⟨-, h1, h2, -⟩ := h
            exact ⟨t, by simp [designated_output, hms, hpf, hr, hget],
              h1.symm, h2.symm⟩
    · simp [choose_rank, hms, hpf] at h

/-- C1 witness: a concrete successful call on a three-element output
tensor. -/
theorem c1_witness : ∃ t : List Int,
    designated_output c1_model c1_conv (some []) = some t ∧
    ([0, 1, 2] : List Nat) = [] ++ List.range t.length ∧
    ([3, 1, 2] : List Int) = [] ++ t :=
  c1_choose_rank_success_dense_actions c1_model c1_conv 0 (some []) [] [] ""
    [0, 1, 2] [3, 1, 2] "" rfl

/-- C2: every failing update leaves the model handle's state (current
session and output index) and the model_ready out-parameter unchanged,
so a subsequent choose_rank behaves exactly as it did against the
previously served model. -/
theorem c2_update_failure_preserves_model {Val : Type} (m : OnnxModel Val)
    (d : ModelData Val) (r : Bool) (c : ErrCode) (msg : String)
    (m2 : OnnxModel Val) (r2 : Bool)
    (h : update m d r = (.err c msg, m2, r2)) :
    m2 = m ∧ r2 = r ∧
      ∀ convert seed features ids pdf ver,
        choose_rank m2 convert seed features ids pdf ver =
          choose_rank m convert seed features ids pdf ver := by
  unfold update at h
  split at h
  · simp only [Prod.mk.injEq] at h
    obtain ⟨-, hm, hr⟩ := h
    subst hm; subst hr
    exact ⟨rfl, rfl, fun convert seed features ids pdf ver => rfl⟩
  · split at h
    · simp only [Prod.mk.injEq] at h
      obtain ⟨-, hm, hr⟩ := h
      subst hm; subst hr
      exact ⟨rfl, rfl, fun convert seed features ids pdf ver => rfl⟩
    · split at h
      · simp only [Prod.mk.injEq] at h
        obtain ⟨-, hm, hr⟩ := h
        subst hm; subst hr
        exact ⟨rfl, rfl, fun convert seed features ids pdf ver => rfl⟩
      · split at h
        · simp only [Prod.mk.injEq] at h
          obtain ⟨-, hm, hr⟩ := h
          subst hm; subst hr
          exact ⟨rfl, rfl, fun convert seed features ids pdf ver => rfl⟩
        · split at h
          · simp only [Prod.mk.injEq] at h
            obtain ⟨-, hm, hr⟩ := h
            subst hm; subst hr
            exact ⟨rfl, rfl, fun convert seed features ids pdf ver => rfl⟩
          · simp at h

/-- C2 witness: a load-rejected update on a ready handle leaves the
handle state untouched and choose_rank behaviour unchanged. -/
theorem c2_witness :
    (update c2_model1 c2_bad true).2.1 = c2_model1 ∧
    (update c2_model1 c2_bad true).2.2 = true ∧
    choose_rank (update c2_model1 c2_bad true).2.1 c2_conv 0 (some []) [] [] "" =
      choose_rank c2_model1 c2_conv 0 (some []) [] [] "" := by
  have h := c2_update_failure_preserves_model c2_model1 c2_bad true
    ErrCode.model_update_error "Invalid model bytes."
    ((update c2_model1 c2_bad true).2.1) ((update c2_model1 c2_bad true).2.2) rfl
  exact ⟨h.1, h.2.1, h.2.2 c2_conv 0 (some []) [] [] ""⟩

/-- C3: the claim fails on the code.  On the malformed input "x" the
parser throws an error that does carry the 1-based position (line 1,
column 2), but `cached_parse` discards the thrown message (its catch
clause never copies it into `_error_message`), so the status surfaced
by `read_tensor_notation` ends with the empty parser message and
contains no line/column information. -/
theorem c3_error_message_drops_position :
    (∃ e, read_tensor_list ['x'] { entries := [] } 0 = .error (e, { entries := [] }) ∧
      e.line = 1 ∧ e.col = 2 ∧
      e.message = "Error parsing TensorNotation at position (1:2): Expecting " ++ SQ ++
        "\x7b" ++ SQ ++ "; actual " ++ SQ ++ "x" ++ SQ ++ ".") ∧
    read_tensor_notation_fn (some ['x']) { entries := [] } =
      (.err .extension_error "OnnxExtension: Failed to deserialize tensor: ",
        { entries := [] }) :=
  ⟨⟨_, rfl, rfl, rfl, rfl⟩, rfl⟩

/-- C4: the claim fails on the code.  `cached_parse` never sets
`_has_parsed`, so a second call on the same parser instance re-scans
from the advanced reading head: after a successful first parse of
"\x7b\x7d" the first call returns true and the second call returns
false. -/
theorem c4_cached_parse_not_memoized :
    (cached_parse (TensorParser.init (some [OPEN_CBRACKET, CLOSE_CBRACKET]))
      { entries := [] }).1 = true ∧
    (cached_parse
      (cached_parse (TensorParser.init (some [OPEN_CBRACKET, CLOSE_CBRACKET]))
        { entries := [] }).2.1
      (cached_parse (TensorParser.init (some [OPEN_CBRACKET, CLOSE_CBRACKET]))
        { entries := [] }).2.2).1 = false :=
  ⟨rfl, rfl⟩

/-- C5 counterexample: the claim as stated is false.  A model whose
session declares one input, served after a successful update, is given
the notation "\x7b\x7d" supplying zero tensors; the call succeeds
instead of failing with an input-count-mismatch error, because
choose_rank never compares the context's tensor count against the
model's declared input count. -/
theorem c5_counterexample :
    (update c5_model0 c5_data false).1 = Status.success ∧
    c5_session.input_types.length = 1 ∧
    (read_tensor_notation_fn (some [OPEN_CBRACKET, CLOSE_CBRACKET])
      { entries := [] }).2.input_count = 0 ∧
    choose_rank c5_model1 (fun _ => some [0]) 0
      (some [OPEN_CBRACKET, CLOSE_CBRACKET]) [] [] "" =
      .ret .success [0] [37] "" :=
  ⟨rfl, rfl, rfl, rfl⟩

/-- C5 amended: the only count check in choose_rank is local to the
input context — the call fails (with the could-not-interpret error)
exactly when the engine input values constructed from the context are
fewer than the context's own entries; the model's declared input
count does not enter the check (the conclusion holds for every
session, whatever its declared inputs). -/
theorem c5_inputs_check_is_local {Val : Type} (m : OnnxModel Val)
    (s : Session Val) (convert : String × tensor_data_t → Option (List Val))
    (seed : Nat) (features : Option (List Char)) (ids : List Nat)
    (pdf : List Val) (ver : String) (ctx : OnnxRtInputContext)
    (hs : m.master_session = some s) (hp : m.parse_feature_string = true)
    (hparse : read_tensor_notation_fn features { entries := [] } = (.success, ctx))
    (hmis : (ctx.inputs convert).length ≠ ctx.input_count) :
    choose_rank m convert seed features ids pdf ver =
      .ret (.err .model_rank_error
        "Could not interpret input values to match expected inputs.") ids pdf ver := by
  simp [choose_rank, hs, hp, hparse, hmis]

/-- C5 witness: a one-tensor notation whose entry cannot be projected
into an engine value makes choose_rank fail with the
could-not-interpret error. -/
theorem c5_witness :
    choose_rank c5_model1 (fun _ => (none : Option (List Int))) 0 (some c5_feats)
      [] [] "" =
      .ret (.err .model_rank_error
        "Could not interpret input values to match expected inputs.") [] [] "" :=
  c5_inputs_check_is_local c5_model1 c5_session (fun _ => none) 0 (some c5_feats)
    [] [] "" { entries := [("a", ("AAAA", "AAAA"))] } rfl rfl rfl (by decide)

/-- C6 counterexample: the claim as stated is false.  Scanning the
name characters backslash, 'a', double quote: under the claimed
mechanism the escape flag would not survive the ordinary character
'a', so the quote would terminate the scan (position 2); the code
preserves the flag across 'a' and consumes the quote, terminating
only at the end of the buffer (position 3). -/
theorem c6_counterexample :
    name_scan 4 [ESCAPE, 'a', DQUOTE] 0 false ≠
      name_scan_as_specified 4 [ESCAPE, 'a', DQUOTE] 0 false := by
  decide

/-- C6 amended: while scanning a tensor name, the escape flag is the
parity of the backslashes consumed so far in the name — each backslash
toggles it and it is preserved unchanged across every other character
— and scanning stops at the first position holding NUL, or holding a
double quote with an even number of preceding backslashes; every
double quote consumed into the name has an odd number of preceding
backslashes. -/
theorem c6_name_scan_parity (s : List Char) (i : Nat) (fuel : Nat)
    (h : s.length - i < fuel) :
    i ≤ name_scan fuel s i false ∧
    (peek s (name_scan fuel s i false) = NULL_TERMINATOR ∨
      (peek s (name_scan fuel s i false) = DQUOTE ∧
        escCount s i (name_scan fuel s i false) % 2 = 0)) ∧
    (∀ k, i ≤ k → k < name_scan fuel s i false →
      peek s k ≠ NULL_TERMINATOR ∧
        (peek s k = DQUOTE → escCount s i k % 2 = 1)) := by
  have hg := name_scan_chars fuel s i false h
  simpa using hg

/-- C6 witness: the parity characterisation evaluated on the scan of
backslash, backslash, double quote (the double backslash re-toggles
the flag to clear, so the quote terminates at position 2 with an even
backslash count). -/
theorem c6_witness :
    0 ≤ name_scan 4 [ESCAPE, ESCAPE, DQUOTE] 0 false ∧
    (peek [ESCAPE, ESCAPE, DQUOTE] (name_scan 4 [ESCAPE, ESCAPE, DQUOTE] 0 false) =
        NULL_TERMINATOR ∨
      (peek [ESCAPE, ESCAPE, DQUOTE] (name_scan 4 [ESCAPE, ESCAPE, DQUOTE] 0 false) =
          DQUOTE ∧
        escCount [ESCAPE, ESCAPE, DQUOTE] 0
          (name_scan 4 [ESCAPE, ESCAPE, DQUOTE] 0 false) % 2 = 0)) ∧
    (∀ k, 0 ≤ k → k < name_scan 4 [ESCAPE, ESCAPE, DQUOTE] 0 false →
      peek [ESCAPE, ESCAPE, DQUOTE] k ≠ NULL_TERMINATOR ∧
        (peek [ESCAPE, ESCAPE, DQUOTE] k = DQUOTE →
          escCount [ESCAPE, ESCAPE, DQUOTE] 0 k % 2 = 1)) :=
  c6_name_scan_parity [ESCAPE, ESCAPE, DQUOTE] 0 4 (by decide)

/-- C7: a choose_rank call on a handle that never published a model
unit returns the value-returned no-model-loaded error with the
out-vectors untouched (no crash, no engine invocation). -/
theorem c7_no_model_loaded {Val : Type} (m : OnnxModel Val)
    (convert : String × tensor_data_t → Option (List Val)) (seed : Nat)
    (features : Option (List Char)) (ids : List Nat) (pdf : List Val)
    (ver : String) (h : m.master_session = none) :
    choose_rank m convert seed features ids pdf ver =
      .ret (.err .model_rank_error "No model loaded.") ids pdf ver := by
  simp [choose_rank, h]

/-- C7 witness: the freshly constructed handle (even with garbage in
the uninitialized output index) value-returns the no-model-loaded
error. -/
theorem c7_witness :
    choose_rank c7_model c1_conv 0 (some []) [] [] "" =
      .ret (.err .model_rank_error "No model loaded.") [] [] "" :=
  c7_no_model_loaded c7_model c1_conv 0 (some []) [] [] "" rfl

/-- C8: an update with zero-length model bytes fails with the
empty-model error, returns the handle state unchanged, and leaves
every subsequent choose_rank behaving as against the previous
state. -/
theorem c8_empty_model_update {Val : Type} (m : OnnxModel Val)
    (d : ModelData Val) (r : Bool) (h : d.data_sz = 0) :
    update m d r = (.err .model_update_error "Empty model data.", m, r) ∧
      ∀ convert seed features ids pdf ver,
        choose_rank (update m d r).2.1 convert seed features ids pdf ver =
          choose_rank m convert seed features ids pdf ver := by
  have hu : update m d r = (.err .model_update_error "Empty model data.", m, r) := by
    unfold update
    rw [if_pos h]
  exact ⟨hu, fun convert seed features ids pdf ver => by rw [hu]⟩

/-- C8 witness: the empty update fails on a ready handle and the old
model still serves a successful choose_rank afterwards. -/
theorem c8_witness :
    update c8_model1 c8_empty true =
      (.err .model_update_error "Empty model data.", c8_model1, true) ∧
    choose_rank c8_model1 c2_conv 3 (some []) [] [] "" =
      .ret .success [0] [9] "" :=
  ⟨(c8_empty_model_update c8_model1 c8_empty true rfl).1, rfl⟩

/-- C9: parsing a null buffer or the empty string succeeds as a
zero-tensor parse, leaving the parser without error and the input
context empty. -/
theorem c9_empty_input_parses_empty :
    read_tensor_notation_fn none { entries := [] } = (.success, { entries := [] }) ∧
    read_tensor_notation_fn (some []) { entries := [] } =
      (.success, { entries := [] }) ∧
    cached_parse (TensorParser.init none) { entries := [] } =
      (true, TensorParser.init none, { entries := [] }) ∧
    cached_parse (TensorParser.init (some [])) { entries := [] } =
      (true, TensorParser.init (some []), { entries := [] }) :=
  ⟨rfl, rfl, rfl, rfl⟩

/-- C10: every value-returning choose_rank call appends to the
caller-supplied out-vectors — whatever the vectors held on entry is
preserved in place and the new entries follow it. -/
theorem c10_choose_rank_appends {Val : Type} (m : OnnxModel Val)
    (convert : String × tensor_data_t → Option (List Val)) (seed : Nat)
    (features : Option (List Char)) (ids : List Nat) (pdf : List Val)
    (ver : String) (st : Status) (ids2 : List Nat) (pdf2 : List Val)
    (ver2 : String)
    (h : choose_rank m convert seed features ids pdf ver = .ret st ids2 pdf2 ver2) :
    ∃ u v, ids2 = ids ++ u ∧ pdf2 = pdf ++ v := by
  cases hms : m.master_session with
  | none =>
    have hcr : choose_rank m convert seed features ids pdf ver =
        .ret (.err .model_rank_error "No model loaded.") ids pdf ver := by
      simp [choose_rank, hms]
    rw [hcr] at h
    simp only [COutcome.ret.injEq] at h
    obtain ⟨-, h1, h2, -⟩ := h
    exact ⟨[], [], by simp [← h1], by simp [← h2]⟩
  | some s =>
    by_cases hpf : m.parse_feature_string
    · rcases hr : read_tensor_notation_fn features { entries := [] } with ⟨stp, ctx⟩
      cases stp with
      | err c msg =>
        have hcr : choose_rank m convert seed features ids pdf ver =
            .ret (.err c msg) ids pdf ver := by
          simp [choose_rank, hms, hpf, hr]
        rw [hcr] at h
        simp only [COutcome.ret.injEq] at h
        obtain ⟨-, h1, h2, -⟩ := h
        exact ⟨[], [], by simp [← h1], by simp [← h2]⟩
      | success =>
        by_cases hcnt : (ctx.inputs convert).length ≠ ctx.input_count
        · have hcr : choose_rank m convert seed features ids pdf ver =
              .ret (.err .model_rank_error
                "Could not interpret input values to match expected inputs.")
                ids pdf ver := by
            simp [choose_rank, hms, hpf, hr, hcnt]
          rw [hcr] at h
          simp only [COutcome.ret.injEq] at h
          obtain ⟨-, h1, h2, -⟩ := h
          exact ⟨[], [], by simp [← h1], by simp [← h2]⟩
        · cases hget : (s.run ctx.input_names (ctx.inputs convert)
              [m.output_name])[m.output_index]? with
          | none => simp [choose_rank, hms, hpf, hr, hcnt, hget] at h
          | some t =>
            have hcr : choose_rank m convert seed features ids pdf ver =
                .ret .success (ids ++ List.range' 0 t.length) (pdf ++ t) ver := by
              simp [choose_rank, hms, hpf, hr, hcnt, hget, push_loop_eq]
            rw [hcr] at h
            simp only [COutcome.ret.injEq] at h
            obtain ⟨-, h1, h2, -⟩ := h
            exact ⟨List.range' 0 t.length, t, h1.symm, h2.symm⟩
    · have hcr : choose_rank m convert seed features ids pdf ver =
          .ret (.err .model_rank_error
            "Using parse_feature_string=false not implemented. See onnx_model.cc.")
            ids pdf ver := by
        simp [choose_rank, hms, hpf]
      rw [hcr] at h
      simp only [COutcome.ret.injEq] at h
      obtain ⟨-, h1, h2, -⟩ := h
      exact ⟨[], [], by simp [← h1], by simp [← h2]⟩

/-- C10 witness: a call entered with non-empty out-vectors preserves
their contents and appends the new pairs. -/
theorem c10_witness :
    ∃ u v, ([99, 0, 1] : List Nat) = [99] ++ u ∧ ([4, 5, 6] : List Int) = [4] ++ v :=
  c10_choose_rank_appends c10_model c1_conv 0 (some []) [99] [4] ""
    .success [99, 0, 1] [4, 5, 6] "" rfl

end RlOnnx
